import Mathlib

/-!
Verification of the message aggregation and retrieval-augmented query engine
of the ragtgbot repository, by a shallow embedding of the Go sources:
  internal/buffer/buffer.go       (MessageBuffer)
  cmd/uploadbackup/shared.go      (Message.GetText, parseTimestamp, limits)
  cmd/uploadbackup/main.go        (backup ingestion loop)
  cmd/tgbot/main.go               (live handler: allow-list, query pipeline)
Go strings are byte sequences; we model a Go string as a Lean `String`
together with its UTF-8 byte expansion `strBytes`, so that Go `len` and
byte slicing are represented exactly.
-/

set_option maxRecDepth 20000

namespace RagBot

/-- UTF-8 encoding of one character, as the list of its byte values.
Matches the standard UTF-8 layout used by Go source strings. -/
def utf8Bytes (c : Char) : List Nat :=
  let n := c.toNat
  if n < 128 then [n]
  else if n < 2048 then [192 + n / 64, 128 + n % 64]
  else if n < 65536 then [224 + n / 4096, 128 + n / 64 % 64, 128 + n % 64]
  else [240 + n / 262144, 128 + n / 4096 % 64, 128 + n / 64 % 64, 128 + n % 64]

/-- The UTF-8 bytes of a string: the byte sequence a Go string holds. -/
def strBytes (s : String) : List Nat :=
  (s.data.map utf8Bytes).flatten

/-- Go `len(s)`: the number of bytes of the string. -/
def goLen (s : String) : Nat :=
  (strBytes s).length

theorem utf8Bytes_ne_nil (c : Char) : utf8Bytes c ≠ [] := by
  simp only [utf8Bytes]
  split
  · simp
  · split
    · simp
    · split <;> simp

theorem goLen_pos_of_ne_empty (s : String) (h : s ≠ "") : 0 < goLen s := by
  cases s with
  | mk data =>
    cases data with
    | nil => exact absurd rfl h
    | cons c cs =>
      have hne := utf8Bytes_ne_nil c
      have hpos : 0 < (utf8Bytes c).length := List.length_pos.mpr hne
      simp [goLen, strBytes]
      omega

theorem goLen_empty : goLen "" = 0 := rfl

/-! ### MessageBuffer (internal/buffer/buffer.go)

The Go struct holds `Text`, `Username`, `Size` guarded by a mutex; every
method locks the mutex for its whole body, so each method is one atomic
step and any concurrent execution is a sequential interleaving of whole
method calls.  We model the state and the four methods directly. -/

structure MessageBuffer where
  text : String
  username : String
  size : Nat
deriving DecidableEq

/-- `NewMessageBuffer` returns the zero value. -/
def MessageBuffer.new : MessageBuffer :=
  { text := "", username := "", size := 0 }

/-- `Add`: first message sets the username and renders `"user: text"`;
later messages append `"\nuser: text"`; `Size` grows by `len(text)`. -/
def MessageBuffer.add (b : MessageBuffer) (username text : String) : MessageBuffer :=
  if b.text = "" then
    { text := username ++ (": ") ++ text
      username := username
      size := b.size + goLen text }
  else
    { b with
        text := b.text ++ ("\n") ++ username ++ (": ") ++ text
        size := b.size + goLen text }

/-- `Clear` resets every field. -/
def MessageBuffer.clear (_b : MessageBuffer) : MessageBuffer :=
  MessageBuffer.new

/-- `IsEmpty` reports `Size == 0`. -/
def MessageBuffer.isEmpty (b : MessageBuffer) : Bool :=
  b.size == 0

/-- `GetContents` returns the `(Text, Username, Size)` snapshot. -/
def MessageBuffer.getContents (b : MessageBuffer) : String × String × Nat :=
  (b.text, b.username, b.size)

theorem MessageBuffer.size_add (b : MessageBuffer) (u t : String) :
    (b.add u t).size = b.size + goLen t := by
  unfold MessageBuffer.add
  split <;> rfl

/-- One mutator call on the buffer (each is atomic under the mutex). -/
inductive BufferOp where
  | add (username text : String)
  | clear
deriving DecidableEq

def MessageBuffer.applyOp (b : MessageBuffer) : BufferOp → MessageBuffer
  | BufferOp.add u t => b.add u t
  | BufferOp.clear => b.clear

/-- Run a sequence of `Add`/`Clear` calls in order. -/
def runOps (b : MessageBuffer) (ops : List BufferOp) : MessageBuffer :=
  ops.foldl MessageBuffer.applyOp b

/-- The `Add` calls performed since the most recent `Clear`
(or since creation, when no `Clear` occurs). -/
def addsSinceLastClear (ops : List BufferOp) : List BufferOp :=
  ops.foldl
    (fun acc op =>
      match op with
      | BufferOp.clear => []
      | a => acc ++ [a])
    []

/-- Sum of `len(text)` over the `add` operations of a list. -/
def sumTextLens (ops : List BufferOp) : Nat :=
  (ops.map
    (fun op =>
      match op with
      | BufferOp.add _ t => goLen t
      | BufferOp.clear => 0)).sum

theorem sumTextLens_append (xs ys : List BufferOp) :
    sumTextLens (xs ++ ys) = sumTextLens xs + sumTextLens ys := by
  simp [sumTextLens]

theorem size_runOps (ops : List BufferOp) :
    ∀ (b : MessageBuffer) (acc : List BufferOp),
      b.size = sumTextLens acc →
      (runOps b ops).size =
        sumTextLens (ops.foldl
          (fun acc op =>
            match op with
            | BufferOp.clear => []
            | a => acc ++ [a]) acc) := by
  induction ops with
  | nil => intro b acc h; simpa [runOps] using h
  | cons op rest ih =>
    intro b acc h
    cases op with
    | add u t =>
      have hstep : (b.add u t).size = sumTextLens (acc ++ [BufferOp.add u t]) := by
        rw [MessageBuffer.size_add, sumTextLens_append, h]
        simp [sumTextLens]
      simpa [runOps, MessageBuffer.applyOp] using
        ih (b.add u t) (acc ++ [BufferOp.add u t]) hstep
    | clear =>
      have hstep : (b.clear).size = sumTextLens ([] : List BufferOp) := by
        simp [MessageBuffer.clear, MessageBuffer.new, sumTextLens]
      simpa [runOps, MessageBuffer.applyOp] using ih b.clear [] hstep

/-- C7: for every finite sequence of `Add` and `Clear` calls, the size
reported by `GetContents` equals the sum of `len(text)` over the `Add`
calls performed since the most recent `Clear` (or since creation);
author prefixes and separators never count toward the size. -/
theorem c7_size_is_sum_since_clear (ops : List BufferOp) :
    (runOps MessageBuffer.new ops).getContents.2.2 =
      sumTextLens (addsSinceLastClear ops) := by
  have h := size_runOps ops MessageBuffer.new []
  simp [MessageBuffer.new, sumTextLens] at h
  simpa [MessageBuffer.getContents, addsSinceLastClear] using h

/-- C8 (counterexample): the claimed invariant admits, for arbitrary
arguments, the call `Add("a", "")`: afterwards `Size` is `0` so
`IsEmpty()` is true, yet `Username` is `"a"`, not the empty string.
So "Username is empty iff the buffer is empty" fails for empty texts. -/
theorem c8_counterexample :
    ¬ (((MessageBuffer.new.add ("a") ("")).username = "") ↔
        (MessageBuffer.new.add ("a") ("")).isEmpty = true) := by
  decide

/-- Invariant used for the amended C8: once every `Add` carries a
non-empty username and non-empty text, username-emptiness and
text-emptiness both track size-emptiness. -/
def usernameSizeInv (b : MessageBuffer) : Prop :=
  (b.username = "" ↔ b.size = 0) ∧ (b.text = "" ↔ b.size = 0)

theorem data_append (a b : String) : (a ++ b).data = a.data ++ b.data := by
  cases a; cases b; rfl

theorem append_ne_empty_right (a b : String) (h : b ≠ "") : a ++ b ≠ "" := by
  intro hc
  apply h
  have hdata : (a ++ b).data = [] := by rw [hc]
  rw [data_append] at hdata
  rcases List.append_eq_nil.mp hdata with ⟨_, hb⟩
  cases b
  simp at hb
  simp [hb]

theorem add_preserves_inv (b : MessageBuffer) (u t : String)
    (hu : u ≠ "") (ht : t ≠ "") (hinv : usernameSizeInv b) :
    usernameSizeInv (b.add u t) := by
  have htpos : 0 < goLen t := goLen_pos_of_ne_empty t ht
  unfold MessageBuffer.add
  by_cases hempty : b.text = ""
  · rw [if_pos hempty]
    refine ⟨iff_of_false hu (by dsimp only; omega),
            iff_of_false ?_ (by dsimp only; omega)⟩
    exact append_ne_empty_right _ _ ht
  · rw [if_neg hempty]
    have hsize : b.size ≠ 0 := fun h => hempty (hinv.2.mpr h)
    have huser : b.username ≠ "" := fun h => hsize (hinv.1.mp h)
    refine ⟨iff_of_false huser (by dsimp only; omega),
            iff_of_false ?_ (by dsimp only; omega)⟩
    exact append_ne_empty_right _ _ ht

theorem runOps_preserves_inv (ops : List BufferOp)
    (h : ∀ u t, BufferOp.add u t ∈ ops → u ≠ "" ∧ t ≠ "") :
    ∀ (b : MessageBuffer), usernameSizeInv b → usernameSizeInv (runOps b ops) := by
  induction ops with
  | nil => intro b hb; simpa [runOps] using hb
  | cons op rest ih =>
    intro b hb
    have hrest : ∀ u t, BufferOp.add u t ∈ rest → u ≠ "" ∧ t ≠ "" := by
      intro u t hm; exact h u t (List.mem_cons_of_mem _ hm)
    cases op with
    | add u t =>
      have huv := h u t (List.mem_cons_self _ _)
      have hstep := add_preserves_inv b u t huv.1 huv.2 hb
      simpa [runOps, MessageBuffer.applyOp] using ih hrest (b.add u t) hstep
    | clear =>
      have hstep : usernameSizeInv b.clear := by
        simp [usernameSizeInv, MessageBuffer.clear, MessageBuffer.new]
      simpa [runOps, MessageBuffer.applyOp] using ih hrest b.clear hstep

/-- C8 (amended): after any finite sequence of `Add` and `Clear` calls in
which every `Add` carries a non-empty username and a non-empty text, the
buffer's `Username` is the empty string iff `IsEmpty()` returns true.
(The unrestricted claim fails for `Add` with empty text or empty
username, see the counterexample.) -/
theorem c8_amended_username_empty_iff (ops : List BufferOp)
    (h : ∀ u t, BufferOp.add u t ∈ ops → u ≠ "" ∧ t ≠ "") :
    ((runOps MessageBuffer.new ops).username = "" ↔
      (runOps MessageBuffer.new ops).isEmpty = true) := by
  have hinv0 : usernameSizeInv MessageBuffer.new := by
    simp [usernameSizeInv, MessageBuffer.new]
  have hinv := runOps_preserves_inv ops h MessageBuffer.new hinv0
  unfold MessageBuffer.isEmpty
  rw [beq_iff_eq]
  exact hinv.1

theorem c8_witness :
    (∀ u t, BufferOp.add u t ∈
        [BufferOp.add ("alice") ("x"), BufferOp.clear, BufferOp.add ("bob") ("yz")] →
        u ≠ "" ∧ t ≠ "") ∧
    ((runOps MessageBuffer.new
        [BufferOp.add ("alice") ("x"), BufferOp.clear, BufferOp.add ("bob") ("yz")]).username = "" ↔
      (runOps MessageBuffer.new
        [BufferOp.add ("alice") ("x"), BufferOp.clear, BufferOp.add ("bob") ("yz")]).isEmpty = true) := by
  have hops : ∀ u t, BufferOp.add u t ∈
      [BufferOp.add ("alice") ("x"), BufferOp.clear, BufferOp.add ("bob") ("yz")] →
      u ≠ "" ∧ t ≠ "" := by
    intro u t hm
    simp only [List.mem_cons, List.not_mem_nil, or_false] at hm
    rcases hm with h | h | h
    · rcases BufferOp.add.inj h with ⟨rfl, rfl⟩; exact ⟨by decide, by decide⟩
    · exact BufferOp.noConfusion h
    · rcases BufferOp.add.inj h with ⟨rfl, rfl⟩; exact ⟨by decide, by decide⟩
  exact ⟨hops, c8_amended_username_empty_iff _ hops⟩

theorem size_runOps_all_unit (ops : List BufferOp)
    (hops : ∀ op ∈ ops, ∃ u t, op = BufferOp.add u t ∧ goLen t = 1) :
    ∀ b : MessageBuffer, (runOps b ops).size = b.size + ops.length := by
  induction ops with
  | nil => intro b; simp [runOps]
  | cons op rest ih =>
    intro b
    have hrest : ∀ op ∈ rest, ∃ u t, op = BufferOp.add u t ∧ goLen t = 1 := by
      intro o hm; exact hops o (List.mem_cons_of_mem _ hm)
    rcases hops op (List.mem_cons_self _ _) with ⟨u, t, rfl, hlen⟩
    have hstep : (b.add u t).size = b.size + 1 := by
      rw [MessageBuffer.size_add, hlen]
    calc (runOps b (BufferOp.add u t :: rest)).size
        = (runOps (b.add u t) rest).size := by simp [runOps, MessageBuffer.applyOp]
      _ = (b.add u t).size + rest.length := ih hrest (b.add u t)
      _ = b.size + (rest.length + 1) := by omega
      _ = b.size + (BufferOp.add u t :: rest).length := by simp

/-- C10: for `N` producers each performing `M` `Add` calls of
single-byte texts on one shared buffer, after all calls complete the
reported size is `N*M`.  Because every method body runs under the single
mutex, a concurrent execution is exactly some interleaving of the whole
`Add` calls; the theorem quantifies over every such interleaving `ops`
(any list of `N*M` atomic single-byte `Add` operations, in any order). -/
theorem c10_concurrent_adds_no_lost_updates (n m : Nat) (ops : List BufferOp)
    (hops : ∀ op ∈ ops, ∃ u t, op = BufferOp.add u t ∧ goLen t = 1)
    (hlen : ops.length = n * m) :
    (runOps MessageBuffer.new ops).getContents.2.2 = n * m := by
  have h := size_runOps_all_unit ops hops MessageBuffer.new
  simp [MessageBuffer.new] at h
  simpa [MessageBuffer.getContents, hlen] using h

theorem c10_witness :
    (∀ op ∈ [BufferOp.add ("p1") ("a"), BufferOp.add ("p2") ("a"),
             BufferOp.add ("p1") ("a"), BufferOp.add ("p2") ("a"),
             BufferOp.add ("p2") ("b"), BufferOp.add ("p1") ("b")],
      ∃ u t, op = BufferOp.add u t ∧ goLen t = 1) ∧
    (runOps MessageBuffer.new
      [BufferOp.add ("p1") ("a"), BufferOp.add ("p2") ("a"),
       BufferOp.add ("p1") ("a"), BufferOp.add ("p2") ("a"),
       BufferOp.add ("p2") ("b"), BufferOp.add ("p1") ("b")]).getContents.2.2 = 2 * 3 := by
  have hops : ∀ op ∈ [BufferOp.add ("p1") ("a"), BufferOp.add ("p2") ("a"),
      BufferOp.add ("p1") ("a"), BufferOp.add ("p2") ("a"),
      BufferOp.add ("p2") ("b"), BufferOp.add ("p1") ("b")],
      ∃ u t, op = BufferOp.add u t ∧ goLen t = 1 := by
    intro op hm
    simp only [List.mem_cons, List.not_mem_nil, or_false] at hm
    rcases hm with rfl | rfl | rfl | rfl | rfl | rfl <;>
      exact ⟨_, _, rfl, by decide⟩
  exact ⟨hops, c10_concurrent_adds_no_lost_updates 2 3 _ hops (by decide)⟩

/-! ### JSON values (the shapes `encoding/json` produces for `interface{}`) -/

inductive Json where
  | null
  | bool (b : Bool)
  | num (n : Int)
  | str (s : String)
  | arr (elems : List Json)
  | obj (fields : List (String × Json))

/-- Go map lookup after unmarshalling an object: with duplicate keys the
later binding wins, so scan left to right keeping the last match. -/
def jsonLookup (fields : List (String × Json)) (key : String) : Option Json :=
  fields.foldl (fun acc p => if p.1 = key then some p.2 else acc) none

/-- Go type assertion `.(string)`. -/
def Json.asString : Json → Option String
  | Json.str s => some s
  | _ => none

/-- Go type assertion `.(map[string]interface\x7b\x7d)`. -/
def Json.asObj : Json → Option (List (String × Json))
  | Json.obj fields => some fields
  | _ => none

/-- Go type assertion `.(float64)` (every JSON number unmarshals to
float64; we carry the numeric payload opaquely, no float arithmetic
is ever performed on it in the program). -/
def Json.asNum : Json → Option Int
  | Json.num n => some n
  | _ => none

/-! ### Message.GetText (cmd/uploadbackup/shared.go) -/

/-- `json.Unmarshal` of one array element into `map[string]interface\x7b\x7d`:
succeeds for an object, and for `null` (which leaves the map nil). -/
def elemAsMap : Json → Option (List (String × Json))
  | Json.obj fields => some fields
  | Json.null => some []
  | _ => none

/-- The contribution of one span element: its `text` field when that
field exists and is a string, nothing otherwise. -/
def spanText (j : Json) : String :=
  match elemAsMap j with
  | some fields =>
    match (jsonLookup fields ("text")).bind Json.asString with
    | some t => t
    | none => ""
  | none => ""

/-- `Message.GetText`: the raw `text` value is `none` when the raw bytes
are empty; a JSON string is returned verbatim (and JSON `null`
unmarshals into a string as a no-op, yielding `""`); an array is accepted
when every element unmarshals into a map, concatenating the string-typed
`text` fields in order; anything else is the parse error. -/
def getText : Option Json → Except String String
  | none => Except.ok ""
  | some Json.null => Except.ok ""
  | some (Json.str s) => Except.ok s
  | some (Json.arr elems) =>
    if elems.all (fun e => (elemAsMap e).isSome) then
      Except.ok (String.join (elems.map spanText))
    else
      Except.error ("failed to parse text field")
  | some _ => Except.error ("failed to parse text field")

/-- C9: `GetText` maps a JSON string to itself; it maps an array of span
objects to the in-order concatenation of the string-typed `text` fields,
spans without a string-typed `text` contributing nothing and raising no
error; in particular `"hello"` gives `"hello"`, the two-span example
gives `"ab"`, and the span without a `text` field gives `""`. -/
theorem c9_getText_extraction (s : String) (elems : List Json)
    (hobjs : ∀ e ∈ elems, (Json.asObj e).isSome) :
    getText (some (Json.str s)) = Except.ok s
    ∧ getText (some (Json.arr elems)) = Except.ok (String.join (elems.map spanText))
    ∧ (∀ fields, spanText (Json.obj fields) =
        match (jsonLookup fields ("text")).bind Json.asString with
        | some t => t
        | none => "")
    ∧ getText (some (Json.str ("hello"))) = Except.ok ("hello")
    ∧ getText (some (Json.arr
        [Json.obj [(("type"), Json.str ("plain")), (("text"), Json.str ("a"))],
         Json.obj [(("type"), Json.str ("bold")), (("text"), Json.str ("b"))]]))
        = Except.ok ("ab")
    ∧ getText (some (Json.arr
        [Json.obj [(("type"), Json.str ("link")), (("href"), Json.str ("x"))]]))
        = Except.ok ("") := by
  refine ⟨rfl, ?_, fun fields => rfl, rfl, rfl, rfl⟩
  have hall : elems.all (fun e => (elemAsMap e).isSome) = true := by
    rw [List.all_eq_true]
    intro e he
    have h := hobjs e he
    cases e <;> simp_all [Json.asObj, elemAsMap]
  simp [getText, hall]

theorem c9_witness :
    (∀ e ∈ [Json.obj [(("text"), Json.str ("a"))], Json.obj []],
      (Json.asObj e).isSome) ∧
    getText (some (Json.arr [Json.obj [(("text"), Json.str ("a"))], Json.obj []]))
      = Except.ok (String.join
          ([Json.obj [(("text"), Json.str ("a"))], Json.obj []].map spanText)) := by
  have hobjs : ∀ e ∈ [Json.obj [(("text"), Json.str ("a"))], Json.obj []],
      (Json.asObj e).isSome := by decide
  exact ⟨hobjs, (c9_getText_extraction ("z") _ hobjs).2.1⟩

/-! ### parseTimestamp (cmd/uploadbackup/shared.go)

`fmt.Sscanf(s, "%d", &timestamp)`: skip leading whitespace, read an
optionally signed decimal integer; it is an error when no digit follows. -/

def digitsVal (ds : List Char) : Nat :=
  ds.foldl (fun n c => n * 10 + (c.toNat - ('0').toNat)) 0

def readNat (cs : List Char) : Option Nat :=
  let ds := cs.takeWhile Char.isDigit
  if ds.isEmpty then none else some (digitsVal ds)

def parseTimestamp (s : String) : Option Int :=
  let cs := s.data.dropWhile (fun c => c = ' ' ∨ c = '\t' ∨ c = '\n')
  match cs with
  | '-' :: rest => (readNat rest).map (fun n => -(n : Int))
  | '+' :: rest => (readNat rest).map (fun n => (n : Int))
  | rest => (readNat rest).map (fun n => (n : Int))

/-! ### Backup ingestion loop (cmd/uploadbackup/main.go) -/

def softLimitChunkSize : Nat := 1000
def hardLimitChunkSize : Nat := 2000
def timeProximityLimit : Int := 3600 * 2

/-- One entry of the backup's `messages` array, with the fields the
ingestion loop reads.  `text` is the raw JSON `text` value. -/
structure BackupMessage where
  id : Int
  msgType : String
  dateUnixtime : String
  fromUser : String
  text : Option Json

/-- A call of `processBuffer`: the message id passed, and the `(Text,
Username)` snapshot of the buffer that was embedded and saved. -/
structure FlushEvent where
  msgID : Int
  text : String
  username : String
deriving DecidableEq

/-- Loop state of `main`: the buffer plus the two tracking variables,
with the trace of `processBuffer` calls made so far. -/
structure IngestState where
  buf : MessageBuffer
  lastMessageID : Int
  lastTimestamp : Int
  flushes : List FlushEvent
deriving DecidableEq

def initIngestState : IngestState :=
  { buf := MessageBuffer.new, lastMessageID := 0, lastTimestamp := 0, flushes := [] }

/-- `timeProximity` in the loop: it starts `true` and is only computed
when both the recorded and the current timestamp are positive. -/
def timeProximityOf (lastTimestamp currentTimestamp : Int) : Bool :=
  if 0 < lastTimestamp ∧ 0 < currentTimestamp then
    decide (currentTimestamp - lastTimestamp ≤ timeProximityLimit)
  else true

/-- The loop's flush test on the current buffer size:
hard limit reached, or soft limit reached while not time-proximate. -/
def flushCondition (size : Nat) (timeProximity : Bool) : Bool :=
  decide (hardLimitChunkSize ≤ size) ||
    (decide (softLimitChunkSize ≤ size) && !timeProximity)

/-- The loop body once a non-empty text was extracted from a "message"
entry: parse the timestamp (`0` on failure), flush-and-clear the
non-empty buffer when the flush test holds, then add the message and
update both tracking variables (the id having been taken from the
current message before the flush check). -/
def ingestProcess (st : IngestState) (m : BackupMessage) (text : String) : IngestState :=
  let currentTimestamp : Int := (parseTimestamp m.dateUnixtime).getD 0
  let st1 :=
    if st.buf.size ≠ 0 then
      if flushCondition st.buf.size
          (timeProximityOf st.lastTimestamp currentTimestamp) then
        { st with
            buf := st.buf.clear
            flushes := st.flushes ++
              [{ msgID := m.id, text := st.buf.text, username := st.buf.username }] }
      else st
    else st
  { st1 with
      buf := st1.buf.add m.fromUser text
      lastMessageID := m.id
      lastTimestamp := currentTimestamp }

/-- One iteration of the loop over `backup.Messages`: skips entries that
are not of type "message", text-extraction failures and empty extracted
texts; otherwise runs `ingestProcess`. -/
def ingestStep (st : IngestState) (m : BackupMessage) : IngestState :=
  if m.msgType = "message" then
    match getText m.text with
    | Except.error _ => st
    | Except.ok text =>
      if text = "" then st
      else ingestProcess st m text
  else st

/-- Run the loop over a prefix of the message list (mid-stream flushes
only; the final unconditional flush happens after the loop). -/
def ingestPrefix (msgs : List BackupMessage) (n : Nat) : IngestState :=
  (msgs.take n).foldl ingestStep initIngestState

/-- The whole run: the loop over all messages followed by the final
`processBuffer` call when the buffer is non-empty. -/
def runBackup (msgs : List BackupMessage) : IngestState :=
  let st := msgs.foldl ingestStep initIngestState
  if st.buf.size ≠ 0 then
    { st with flushes := st.flushes ++
        [{ msgID := st.lastMessageID, text := st.buf.text, username := st.buf.username }] }
  else st

theorem ingestStep_ok (st : IngestState) (m : BackupMessage) (text : String)
    (htype : m.msgType = "message") (hget : getText m.text = Except.ok text)
    (hne : text ≠ "") :
    ingestStep st m = ingestProcess st m text := by
  simp [ingestStep, htype, hget, hne]

theorem ingestProcess_flush (st : IngestState) (m : BackupMessage) (text : String)
    (hne0 : st.buf.size ≠ 0)
    (hflush : flushCondition st.buf.size
        (timeProximityOf st.lastTimestamp ((parseTimestamp m.dateUnixtime).getD 0)) = true) :
    ingestProcess st m text =
      { buf := MessageBuffer.new.add m.fromUser text
        lastMessageID := m.id
        lastTimestamp := (parseTimestamp m.dateUnixtime).getD 0
        flushes := st.flushes ++
          [{ msgID := m.id, text := st.buf.text, username := st.buf.username }] } := by
  simp [ingestProcess, hne0, hflush, MessageBuffer.clear]

theorem ingestProcess_noflush (st : IngestState) (m : BackupMessage) (text : String)
    (h : st.buf.size = 0 ∨ flushCondition st.buf.size
        (timeProximityOf st.lastTimestamp ((parseTimestamp m.dateUnixtime).getD 0)) = false) :
    ingestProcess st m text =
      { buf := st.buf.add m.fromUser text
        lastMessageID := m.id
        lastTimestamp := (parseTimestamp m.dateUnixtime).getD 0
        flushes := st.flushes } := by
  rcases h with h | h
  · simp [ingestProcess, h]
  · by_cases hne0 : st.buf.size ≠ 0
    · simp [ingestProcess, hne0, h]
    · simp at hne0
      simp [ingestProcess, hne0]

/-- C2: whenever the aggregator is non-empty, its accumulated size has
reached `softLimit` but not `hardLimit`, both the recorded and the
incoming parsed timestamps are positive, and their gap exceeds the
proximity window, the loop flushes the existing chunk (records the
`processBuffer` call and clears) before adding the new message. -/
theorem c2_soft_limit_time_gap_flush
    (st : IngestState) (m : BackupMessage) (t : String) (ts : Int)
    (htype : m.msgType = "message")
    (hget : getText m.text = Except.ok t)
    (hne : t ≠ "")
    (hsoft : softLimitChunkSize ≤ st.buf.size)
    (_hhard : st.buf.size < hardLimitChunkSize)
    (hlast : 0 < st.lastTimestamp)
    (hts : parseTimestamp m.dateUnixtime = some ts)
    (htspos : 0 < ts)
    (hgap : timeProximityLimit < ts - st.lastTimestamp) :
    (ingestStep st m).flushes = st.flushes ++
        [{ msgID := m.id, text := st.buf.text, username := st.buf.username }]
    ∧ (ingestStep st m).buf = MessageBuffer.new.add m.fromUser t := by
  have hne0 : st.buf.size ≠ 0 := by
    have h1000 : (1000 : Nat) ≤ st.buf.size := hsoft
    omega
  have hprox : timeProximityOf st.lastTimestamp ((parseTimestamp m.dateUnixtime).getD 0)
      = false := by
    rw [hts]
    simp only [Option.getD_some, timeProximityOf]
    rw [if_pos ⟨hlast, htspos⟩]
    have hl : timeProximityLimit = 7200 := rfl
    simp only [decide_eq_false_iff_not]
    omega
  have hflush : flushCondition st.buf.size
      (timeProximityOf st.lastTimestamp ((parseTimestamp m.dateUnixtime).getD 0)) = true := by
    rw [hprox]
    simp [flushCondition, hsoft]
  rw [ingestStep_ok st m t htype hget hne,
      ingestProcess_flush st m t hne0 hflush]
  exact ⟨rfl, rfl⟩

def c2WitnessState : IngestState :=
  { buf := MessageBuffer.new.add ("alice") (String.mk (List.replicate 1200 ('a')))
    lastMessageID := 7
    lastTimestamp := 1000
    flushes := [] }

def c2WitnessMsg : BackupMessage :=
  { id := 8
    msgType := "message"
    dateUnixtime := "999999"
    fromUser := "bob"
    text := some (Json.str ("hi")) }

theorem c2_witness :
    (ingestStep c2WitnessState c2WitnessMsg).flushes = c2WitnessState.flushes ++
        [{ msgID := c2WitnessMsg.id, text := c2WitnessState.buf.text,
           username := c2WitnessState.buf.username }]
    ∧ (ingestStep c2WitnessState c2WitnessMsg).buf =
        MessageBuffer.new.add c2WitnessMsg.fromUser ("hi") :=
  c2_soft_limit_time_gap_flush c2WitnessState c2WitnessMsg ("hi") 999999
    rfl rfl (by decide) (by decide) (by decide)
    (by decide) (by decide) (by decide) (by decide)

/-- C6: when the incoming message's timestamp fails to parse (treated as
`0`), or the previously recorded timestamp is `0` (a previous parse
failure or stream start), the proximity comparison stays "within
proximity", so for that message the soft-limit rule cannot flush — only
the hard-limit rule can — and the message is still ingested (added to
the buffer) rather than aborting the run. -/
theorem c6_unparsable_timestamp_degrades
    (st : IngestState) (m : BackupMessage) (t : String)
    (htype : m.msgType = "message")
    (hget : getText m.text = Except.ok t)
    (hne : t ≠ "")
    (hts : parseTimestamp m.dateUnixtime = none ∨ st.lastTimestamp = 0) :
    ((ingestStep st m).flushes = st.flushes ↔ st.buf.size < hardLimitChunkSize)
    ∧ (ingestStep st m).buf =
        (if hardLimitChunkSize ≤ st.buf.size then MessageBuffer.new else st.buf).add
          m.fromUser t := by
  have hprox : timeProximityOf st.lastTimestamp ((parseTimestamp m.dateUnixtime).getD 0)
      = true := by
    rcases hts with h | h
    · rw [h]
      simp [timeProximityOf]
    · rw [h]
      simp [timeProximityOf]
  have hcond : flushCondition st.buf.size
      (timeProximityOf st.lastTimestamp ((parseTimestamp m.dateUnixtime).getD 0))
      = decide (hardLimitChunkSize ≤ st.buf.size) := by
    rw [hprox]
    simp [flushCondition]
  rw [ingestStep_ok st m t htype hget hne]
  by_cases hhard : hardLimitChunkSize ≤ st.buf.size
  · have hne0 : st.buf.size ≠ 0 := by
      have h2000 : (2000 : Nat) ≤ st.buf.size := hhard
      omega
    rw [ingestProcess_flush st m t hne0 (by rw [hcond]; simpa using hhard)]
    refine ⟨iff_of_false ?_ (by omega), by rw [if_pos hhard]⟩
    intro habs
    have hlen := congrArg List.length habs
    simp at hlen
  · rw [ingestProcess_noflush st m t
        (Or.inr (by rw [hcond]; simpa using hhard))]
    exact ⟨iff_of_true rfl (by omega), by rw [if_neg hhard]⟩

def c6WitnessMsg : BackupMessage :=
  { id := 3
    msgType := "message"
    dateUnixtime := "oops"
    fromUser := "bob"
    text := some (Json.str ("hey")) }

theorem c6_witness :
    ((ingestStep initIngestState c6WitnessMsg).flushes = initIngestState.flushes ↔
        initIngestState.buf.size < hardLimitChunkSize)
    ∧ (ingestStep initIngestState c6WitnessMsg).buf =
        (if hardLimitChunkSize ≤ initIngestState.buf.size then MessageBuffer.new
         else initIngestState.buf).add c6WitnessMsg.fromUser ("hey") :=
  c6_unparsable_timestamp_degrades initIngestState c6WitnessMsg ("hey")
    rfl rfl (by decide) (Or.inl (by decide))

/-! ### C1: the five 500-character messages, 10 seconds apart -/

def c1Text : String := String.mk (List.replicate 500 ('a'))

def c1Msg (id : Int) (dateUnixtime : String) : BackupMessage :=
  { id := id
    msgType := "message"
    dateUnixtime := dateUnixtime
    fromUser := "u"
    text := some (Json.str c1Text) }

def c1Msgs : List BackupMessage :=
  [c1Msg 1 ("1000"), c1Msg 2 ("1010"), c1Msg 3 ("1020"),
   c1Msg 4 ("1030"), c1Msg 5 ("1040")]

/-- C1 (counterexample): with soft=1000, hard=2000 and five 500-char
messages 10s apart, no mid-stream flush has occurred after the 3rd nor
after the 4th message has been processed — the 4th message is added to
the chunk without any flush, contradicting the claim that the existing
chunk is flushed while processing the 4th message. -/
theorem c1_counterexample :
    (ingestPrefix c1Msgs 3).flushes = [] ∧ (ingestPrefix c1Msgs 4).flushes = [] := by
  decide

/-- C1 (amended): the loop compares the already-accumulated size, not
`currentSize + len(newText)`; so the single mid-stream flush is triggered
while processing the 5th message, when the buffer size has reached the
hard limit 2000 after four messages: the chunk holding messages 1-4 is
flushed (attributed to id 5) before the 5th message is added, leaving a
buffer of size 500. -/
theorem c1_amended_flush_at_fifth :
    (ingestPrefix c1Msgs 4).flushes = []
    ∧ (ingestPrefix c1Msgs 4).buf.size = 2000
    ∧ (ingestPrefix c1Msgs 5).flushes.map FlushEvent.msgID = [5]
    ∧ (ingestPrefix c1Msgs 5).buf.size = 500 := by
  decide

/-! ### Live handler (cmd/tgbot/main.go) -/

/-- One search hit as unmarshalled by `searchQdrant`: a JSON object. -/
def QdrantPoint := List (String × Json)

/-- The conversion loop at the end of `searchQdrant`: every element of
the `result` array must be a map, otherwise the whole search returns the
error `result item is not a map`. -/
def convertResults : List Json → Except String (List QdrantPoint)
  | [] => Except.ok []
  | r :: rest =>
    match Json.asObj r with
    | none => Except.error ("result item is not a map")
    | some fields =>
      match convertResults rest with
      | Except.error e => Except.error e
      | Except.ok out => Except.ok (fields :: out)

/-- `searchQdrant` end to end: `none` models a transport/decode/HTTP
failure before the conversion loop. -/
def searchQdrantModel : Option (List Json) → Except String (List QdrantPoint)
  | none => Except.error ("search request failed")
  | some arr => convertResults arr

def apostrophe : Char := Char.ofNat 39

def restrictedAccessMessage : String :=
  "Sorry, this bot is restricted to answer outside of specific groups, but it" ++
    String.singleton apostrophe ++
  "s open-source and self-hosted, you can always host your own instance of it at https://github.com/korjavin/ragtgbot"

def degradedNotice : String :=
  "I couldn" ++ String.singleton apostrophe ++
  "t generate an AI answer due to an error.\n\n"

def relevantHeader : String := "Here are some relevant messages:\n"

def noRelevantMsg : String := "No relevant messages found.\n"

def errProcessingMsg : String := "Error processing your query"

/-- The `if i >= 1 \x7b break \x7d` bound of the reply loop. -/
def displayLimit : Nat := 1

/-- `result["score"].(float64)` with the `score = 0` fallback on a
missing or non-number value. -/
def scoreOf (r : QdrantPoint) : Int :=
  ((jsonLookup r ("score")).bind Json.asNum).getD 0

/-- Byte-level truncation of the reply loop: texts longer than 50 bytes
are cut at 50 bytes and suffixed with an ellipsis. -/
def truncateDisplay (text : String) : List Nat :=
  if 50 < goLen text then (strBytes text).take 50 ++ strBytes ("...")
  else strBytes text

/-- One iteration body of the reply loop: skip (`continue`) when the
payload is not a map or its `text` is not a string; default the username
to "Unknown" and the score to 0; render `"- <user>: <text truncated>\n"`. -/
def snippetLine (r : QdrantPoint) : Option (List Nat) :=
  match (jsonLookup r ("payload")).bind Json.asObj with
  | none => none
  | some payload =>
    match (jsonLookup payload ("text")).bind Json.asString with
    | none => none
    | some text =>
      let username := ((jsonLookup payload ("username")).bind Json.asString).getD ("Unknown")
      some (strBytes ("- " ++ username ++ ": ") ++ truncateDisplay text ++ strBytes ("\n"))

/-- The reply loop over the search results: `i` is the loop index, the
loop breaks as soon as `i` reaches `displayLimit`, skipped results do
not emit a line but do advance the index. -/
def relevantLines (i : Nat) : List QdrantPoint → List (List Nat)
  | [] => []
  | r :: rest =>
    if displayLimit ≤ i then []
    else
      match snippetLine r with
      | none => relevantLines (i + 1) rest
      | some line => line :: relevantLines (i + 1) rest

/-- The composed query reply: the generated answer (or the degraded-mode
notice when generation failed), then the snippet section, then the
no-results line when no snippet was emitted. -/
def composeQueryReply (genOut : Except Unit String) (results : List QdrantPoint) :
    List Nat :=
  let intro :=
    match genOut with
    | Except.error _ => strBytes degradedNotice
    | Except.ok ans => strBytes ans ++ strBytes ("\n\n")
  let lines := relevantLines 0 results
  intro ++ strBytes relevantHeader ++ lines.flatten ++
    (if lines.length = 0 then strBytes noRelevantMsg else [])

/-- `isAllowedChat`: an empty allow-list allows everything, otherwise
the chat id must appear in the list. -/
def isAllowedChat (chatID : Int) (allowedGroups : List Int) : Bool :=
  if allowedGroups.length = 0 then true
  else allowedGroups.any (fun groupID => chatID == groupID)

/-- `strings.Contains`. -/
def goContains (s sub : String) : Bool :=
  (s.data.tails).any (fun tail => sub.data.isPrefixOf tail)

/-- Outcomes of the external collaborators for one handler run; the
handler's branching is modelled exactly, the network payloads are not
needed by any claim. -/
structure HandlerEnv where
  embedOut : Except Unit Unit
  searchHttpOut : Option (List Json)
  genOut : Except Unit String

/-- Observable side effects of one handler run, in order. -/
inductive Effect where
  | embed
  | search
  | gen
  | store
  | send (reply : List Nat)
deriving DecidableEq

/-- The query branch: embed the query, search, then generate and send
the composed reply; embedding or search failures send the fixed error
reply instead. -/
def queryPipeline (env : HandlerEnv) : List Effect :=
  match env.embedOut with
  | Except.error _ => [Effect.embed, Effect.send (strBytes errProcessingMsg)]
  | Except.ok _ =>
    match searchQdrantModel env.searchHttpOut with
    | Except.error _ => [Effect.embed, Effect.search, Effect.send (strBytes errProcessingMsg)]
    | Except.ok results =>
      [Effect.embed, Effect.search, Effect.gen,
       Effect.send (composeQueryReply env.genOut results)]

/-- The storage branch: embed then upsert; an embedding failure is
swallowed with no reply. -/
def storePipeline (env : HandlerEnv) : List Effect :=
  match env.embedOut with
  | Except.error _ => [Effect.embed]
  | Except.ok _ => [Effect.embed, Effect.store]

/-- The `OnText` handler: a disallowed chat gets the restricted notice
iff the bot is mentioned, and nothing else happens; in an allowed chat a
mention runs the query pipeline, then the bot's own messages are
dropped, and everything else is stored. -/
def handleText (env : HandlerEnv) (botUsername : String) (allowedGroups : List Int)
    (chatID : Int) (senderUsername : String) (text : String) : List Effect :=
  if isAllowedChat chatID allowedGroups = false then
    if goContains text ("@" ++ botUsername) then
      [Effect.send (strBytes restrictedAccessMessage)]
    else []
  else if goContains text ("@" ++ botUsername) then
    queryPipeline env
  else if senderUsername = botUsername then []
  else storePipeline env

/-- The snippet loop of `generateOpenAIAnswer`: it walks every search
result, skipping those whose payload is not a map or whose text is not a
string, and renders `"<user>: <text>"` for the rest. -/
def promptSnippets : List QdrantPoint → List String
  | [] => []
  | r :: rest =>
    match (jsonLookup r ("payload")).bind Json.asObj with
    | none => promptSnippets rest
    | some payload =>
      match (jsonLookup payload ("text")).bind Json.asString with
      | none => promptSnippets rest
      | some text =>
        ((((jsonLookup payload ("username")).bind Json.asString).getD ("Unknown")) ++
          ": " ++ text) :: promptSnippets rest

theorem relevantLines_stop (rs : List QdrantPoint) (i : Nat)
    (h : displayLimit ≤ i) : relevantLines i rs = [] := by
  cases rs with
  | nil => rfl
  | cons r rest => simp [relevantLines, h]

theorem relevantLines_eq_filterMap (rs : List QdrantPoint) :
    relevantLines 0 rs = (rs.take displayLimit).filterMap snippetLine := by
  cases rs with
  | nil => rfl
  | cons r rest =>
    have h1 : relevantLines 1 rest = [] := relevantLines_stop rest 1 (by decide)
    cases hs : snippetLine r <;>
      simp [relevantLines, displayLimit, hs, h1]

theorem composeQueryReply_ne_nil (genOut : Except Unit String)
    (results : List QdrantPoint) :
    composeQueryReply genOut results ≠ [] := by
  intro habs
  have hne : strBytes relevantHeader ≠ [] := by decide
  cases genOut with
  | error e =>
    simp [composeQueryReply] at habs
    exact hne habs.2.1
  | ok a =>
    simp [composeQueryReply] at habs
    exact hne habs.2.2.1

/-- C3: on a query in an allowed chat with the bot mentioned, a
successful embedding and a successful search whose results are sorted by
descending score, the handler sends the composed reply; the reply's
snippet section follows the search order exactly (no re-sorting), is
bounded by the display limit, and renders each kept result as
`"- <author>: <text truncated at 50 bytes with an ellipsis>\n"` (that is
`snippetLine`); when the generative call fails the reply is the
degraded-mode notice followed by that snippet section, and it is never
empty. -/
theorem c3_query_reply_order_and_degraded
    (env : HandlerEnv) (bot : String) (groups : List Int) (chatID : Int)
    (sender text : String) (results : List QdrantPoint)
    (hallow : isAllowedChat chatID groups = true)
    (hmention : goContains text ("@" ++ bot) = true)
    (hembed : env.embedOut = Except.ok ())
    (hsearch : searchQdrantModel env.searchHttpOut = Except.ok results)
    (_hsorted : List.Chain' (fun a b => scoreOf b ≤ scoreOf a) results) :
    handleText env bot groups chatID sender text =
      [Effect.embed, Effect.search, Effect.gen,
       Effect.send (composeQueryReply env.genOut results)]
    ∧ relevantLines 0 results = (results.take displayLimit).filterMap snippetLine
    ∧ (env.genOut = Except.error () →
        composeQueryReply env.genOut results =
          strBytes degradedNotice ++ strBytes relevantHeader ++
            ((results.take displayLimit).filterMap snippetLine).flatten ++
            (if ((results.take displayLimit).filterMap snippetLine).length = 0
             then strBytes noRelevantMsg else []))
    ∧ composeQueryReply env.genOut results ≠ [] := by
  refine ⟨?_, relevantLines_eq_filterMap results, ?_, composeQueryReply_ne_nil _ _⟩
  · simp [handleText, hallow, hmention, queryPipeline, hembed, hsearch]
  · intro hgen
    rw [hgen]
    simp [composeQueryReply, relevantLines_eq_filterMap results]

def c3p1 : QdrantPoint :=
  [(("payload"), Json.obj [(("text"), Json.str ("first answer")),
                           (("username"), Json.str ("ann"))]),
   (("score"), Json.num 9)]

def c3p2 : QdrantPoint :=
  [(("payload"), Json.obj [(("text"), Json.str ("second answer")),
                           (("username"), Json.str ("ben"))]),
   (("score"), Json.num 4)]

def c3Env : HandlerEnv :=
  { embedOut := Except.ok ()
    searchHttpOut := some [Json.obj c3p1, Json.obj c3p2]
    genOut := Except.error () }

theorem c3_witness :
    handleText c3Env ("bot") [] 1 ("alice") ("@bot question") =
      [Effect.embed, Effect.search, Effect.gen,
       Effect.send (composeQueryReply (Except.error ()) [c3p1, c3p2])]
    ∧ composeQueryReply (Except.error ()) [c3p1, c3p2] ≠ [] := by
  have hsorted : List.Chain' (fun a b => scoreOf b ≤ scoreOf a) [c3p1, c3p2] := by
    refine List.chain'_cons.mpr ⟨?_, List.chain'_singleton _⟩
    show scoreOf c3p2 ≤ scoreOf c3p1
    decide
  have h := c3_query_reply_order_and_degraded c3Env ("bot") [] 1 ("alice")
    ("@bot question") [c3p1, c3p2] (by decide) (by decide) rfl rfl hsorted
  exact ⟨h.1, h.2.2.2⟩

/-- C4 (counterexample): a search response whose `result` array holds a
well-formed hit followed by one item that is not a map makes the whole
`searchQdrant` call fail with `result item is not a map`, and the whole
query then answers with the fixed error reply — so a single malformed
result can fail the whole search, contrary to the claim. -/
theorem c4_counterexample :
    searchQdrantModel
        (some [Json.obj [(("payload"),
            Json.obj [(("text"), Json.str ("fine")), (("username"), Json.str ("u"))]),
            (("score"), Json.num 9)], Json.num 7])
      = Except.error ("result item is not a map")
    ∧ handleText
        { embedOut := Except.ok ()
          searchHttpOut := some [Json.obj [(("payload"),
              Json.obj [(("text"), Json.str ("fine")), (("username"), Json.str ("u"))]),
              (("score"), Json.num 9)], Json.num 7]
          genOut := Except.ok ("answer") }
        ("bot") [] 1 ("alice") ("@bot q") =
        [Effect.embed, Effect.search, Effect.send (strBytes errProcessingMsg)] := by
  exact ⟨rfl, by decide⟩

/-- C4 (amended): among map-shaped results, one whose payload is not a
map or whose text is not a string is skipped (by the prompt loop over
all results and by the bounded reply loop) while the remaining results
are still processed, and a result whose score is absent or malformed is
kept with score 0; but a `result` array item that is itself not a map
fails the whole search, while an all-map array converts successfully. -/
theorem c4_amended_skip_and_default :
    (∀ (r : QdrantPoint) (rest : List QdrantPoint),
      (jsonLookup r ("payload")).bind Json.asObj = none →
      promptSnippets (r :: rest) = promptSnippets rest ∧ snippetLine r = none)
    ∧ (∀ (r : QdrantPoint) (rest : List QdrantPoint) (payload : List (String × Json)),
        (jsonLookup r ("payload")).bind Json.asObj = some payload →
        (jsonLookup payload ("text")).bind Json.asString = none →
        promptSnippets (r :: rest) = promptSnippets rest ∧ snippetLine r = none)
    ∧ (∀ (r : QdrantPoint) (payload : List (String × Json)) (text : String),
        (jsonLookup r ("payload")).bind Json.asObj = some payload →
        (jsonLookup payload ("text")).bind Json.asString = some text →
        snippetLine r = some (strBytes
            ("- " ++ (((jsonLookup payload ("username")).bind Json.asString).getD ("Unknown")) ++ ": ")
          ++ truncateDisplay text ++ strBytes ("\n")))
    ∧ (∀ r : QdrantPoint, (jsonLookup r ("score")).bind Json.asNum = none → scoreOf r = 0)
    ∧ (∀ rs : List QdrantPoint,
        relevantLines 0 rs = (rs.take displayLimit).filterMap snippetLine)
    ∧ (∀ js : List Json, (∀ j ∈ js, (Json.asObj j).isSome) →
        ∃ out, convertResults js = Except.ok out) := by
  refine ⟨?_, ?_, ?_, ?_, relevantLines_eq_filterMap, ?_⟩
  · intro r rest hp
    exact ⟨by simp [promptSnippets, hp], by simp [snippetLine, hp]⟩
  · intro r rest payload hp ht
    exact ⟨by simp [promptSnippets, hp, ht], by simp [snippetLine, hp, ht]⟩
  · intro r payload text hp ht
    simp [snippetLine, hp, ht]
  · intro r hs
    simp [scoreOf, hs]
  · intro js hall
    induction js with
    | nil => exact ⟨[], rfl⟩
    | cons j rest ih =>
      have hj := hall j (List.mem_cons_self _ _)
      rcases ih (fun x hx => hall x (List.mem_cons_of_mem _ hx)) with ⟨out, hout⟩
      cases j with
      | obj fields =>
        exact ⟨fields :: out, by simp [convertResults, Json.asObj, hout]⟩
      | null => simp [Json.asObj] at hj
      | bool b => simp [Json.asObj] at hj
      | num n => simp [Json.asObj] at hj
      | str s => simp [Json.asObj] at hj
      | arr es => simp [Json.asObj] at hj

theorem c4_witness :
    snippetLine [(("payload"), Json.num 3)] = none
    ∧ scoreOf [(("payload"), Json.obj [])] = 0
    ∧ promptSnippets [[(("payload"), Json.num 3)],
        [(("payload"), Json.obj [(("text"), Json.str ("kept"))])]] =
      promptSnippets [[(("payload"), Json.obj [(("text"), Json.str ("kept"))])]]
    ∧ (∃ out, convertResults [Json.obj []] = Except.ok out) := by
  refine ⟨(c4_amended_skip_and_default.1 [(("payload"), Json.num 3)] [] rfl).2,
          c4_amended_skip_and_default.2.2.2.1 [(("payload"), Json.obj [])] rfl,
          (c4_amended_skip_and_default.1 [(("payload"), Json.num 3)]
            [[(("payload"), Json.obj [(("text"), Json.str ("kept"))])]] rfl).1,
          c4_amended_skip_and_default.2.2.2.2.2 [Json.obj []] ?_⟩
  intro j hj
  simp at hj
  subst hj
  rfl

/-- C5 (counterexample): in an allowed chat, a message sent by the bot
itself that contains the bot's handle is processed as a query: the
handler performs embedding, search and generation side effects and sends
the composed reply, which is not the restricted-access notice — so
messages from the bot's own identity are not always terminal. -/
theorem c5_counterexample :
    handleText
        { embedOut := Except.ok (), searchHttpOut := some [], genOut := Except.error () }
        ("bot") [] 1 ("bot") ("@bot hi") =
      [Effect.embed, Effect.search, Effect.gen,
       Effect.send (composeQueryReply (Except.error ()) [])]
    ∧ Effect.embed ∈ handleText
        { embedOut := Except.ok (), searchHttpOut := some [], genOut := Except.error () }
        ("bot") [] 1 ("bot") ("@bot hi")
    ∧ handleText
        { embedOut := Except.ok (), searchHttpOut := some [], genOut := Except.error () }
        ("bot") [] 1 ("bot") ("@bot hi") ≠
        [Effect.send (strBytes restrictedAccessMessage)] := by
  decide

/-- C5 (amended): a message from a disallowed chat is terminal with no
embedding, storage or search side effects, the only possible reply being
the fixed restricted-access notice, sent exactly when the message
contains the bot's handle; a message from the bot's own identity that
does not mention the bot is terminal with no side effects; and an empty
allow-list admits every chat.  (A self-message that mentions the bot is
instead processed as a query, see the counterexample.) -/
theorem c5_amended_ignored_messages
    (env : HandlerEnv) (bot : String) (groups : List Int)
    (chatID : Int) (sender text : String) :
    (isAllowedChat chatID groups = false →
      handleText env bot groups chatID sender text =
        (if goContains text ("@" ++ bot) then
          [Effect.send (strBytes restrictedAccessMessage)]
         else []))
    ∧ (isAllowedChat chatID groups = true → goContains text ("@" ++ bot) = false →
        sender = bot → handleText env bot groups chatID sender text = [])
    ∧ isAllowedChat chatID [] = true := by
  refine ⟨?_, ?_, by simp [isAllowedChat]⟩
  · intro h
    simp [handleText, h]
  · intro h1 h2 h3
    simp [handleText, h1, h2, h3]

theorem c5_witness :
    handleText
        { embedOut := Except.ok (), searchHttpOut := some [], genOut := Except.error () }
        ("bot") [7] 1 ("alice") ("@bot hi") =
      [Effect.send (strBytes restrictedAccessMessage)]
    ∧ handleText
        { embedOut := Except.ok (), searchHttpOut := some [], genOut := Except.error () }
        ("bot") [] 2 ("bot") ("hello") = [] := by
  have h1 := (c5_amended_ignored_messages
    { embedOut := Except.ok (), searchHttpOut := some [], genOut := Except.error () }
    ("bot") [7] 1 ("alice") ("@bot hi")).1 (by decide)
  have h2 := (c5_amended_ignored_messages
    { embedOut := Except.ok (), searchHttpOut := some [], genOut := Except.error () }
    ("bot") [] 2 ("bot") ("hello")).2.1 (by decide) (by decide) rfl
  refine ⟨?_, h2⟩
  rw [h1]
  decide

end RagBot
